import Mathlib

/-!
Shallow embedding of `target_parquet/helpers.py`.

The module's data model is JSON-like: nested records are Python dicts whose
values are scalars, lists, or further dicts; nested schemas are dicts mapping
field names to declaration dicts with optional `"type"` and `"properties"`
keys.  Python dicts are modelled as association lists (`List (String × _)`)
in insertion order; `dict(items)` / `d[k] = v` / `d.update(..)` semantics
are modelled by `pyDict` / `dictInsert`.  Python's unordered sets appear only
in `_field_type_to_pyarrow_field`; they are modelled by first-occurrence
deduplication (`List.eraseDups`), which fixes one of the iteration orders the
interpreter may produce (the source's own set order is hash-dependent; all
claims exercised here have at most one non-null token, where every order
agrees).  Python exceptions (`KeyError`, `NotImplementedError`) are modelled
with `Except`.
-/

/-- A JSON-like Python value: `None`, `bool`, `int`, `str`, `list`, or `dict`
(a nested record).  Floats are not needed by any record in the claims and the
module never computes with numbers, so numeric leaves are modelled by `vInt`. -/
inductive JVal where
  | vNull
  | vBool (b : Bool)
  | vInt (n : Int)
  | vStr (s : String)
  | vList (l : List JVal)
  | vObj (o : List (String × JVal))
deriving Repr

/-- The value stored under a `"type"` key of a schema declaration: either a
single type name or a list of type names (`Union[List[str], str]`). -/
inductive TypeDecl where
  | str (s : String)
  | list (l : List String)
deriving Repr, DecidableEq

/-- A nested schema declaration dict: optional `"type"` key and optional
`"properties"` key (itself a dict of declarations).  `none` means the key is
absent from the dict. -/
inductive SchemaNode where
  | mk (typeAttr : Option TypeDecl) (properties : Option (List (String × SchemaNode)))

/-- The `"type"` value of a declaration (`value.get("type", None)`). -/
def SchemaNode.typeAttr : SchemaNode → Option TypeDecl
  | .mk t _ => t

/-- The `"properties"` value of a declaration (`value.get("properties")`). -/
def SchemaNode.properties : SchemaNode → Option (List (String × SchemaNode))
  | .mk _ p => p

/-- The four pyarrow storage types the module uses: `pa.bool_()`,
`pa.string()`, `pa.int64()`, `pa.float64()`. -/
inductive PAType where
  | bool_
  | string_
  | int64
  | float64
deriving Repr, DecidableEq

/-- `pa.field(field_name, pyarrow_type, nullable)`. -/
structure PAField where
  name : String
  dtype : PAType
  nullable : Bool
deriving Repr, DecidableEq

/-- The Python exceptions the module can raise: a `KeyError` from
`flatten_schema_dictionary[field_name]`, or the `NotImplementedError` raised
by `_field_type_to_pyarrow_field` (carrying its formatted message). -/
inductive PyError where
  | keyError (key : String)
  | notImplementedError (msg : String)
deriving Repr, DecidableEq

/-- A single-quote character, written via its code point. -/
def pyQuote : String := String.singleton (Char.ofNat 39)

/-- A double-quote character, written via its code point. -/
def pyDQuote : String := String.singleton (Char.ofNat 34)

mutual
/-- Python's `str`/`repr` rendering of a value, as used by `str(v)` on list
leaves in `flatten`: elements of lists and dicts are rendered with `repr`,
so strings gain single quotes.  Quote-escaping inside strings (relevant only
to strings that themselves contain quotes) is not modelled. -/
def pyRepr : JVal → String
  | .vNull => "None"
  | .vBool b => if b then "True" else "False"
  | .vInt n => toString n
  | .vStr s => pyQuote ++ s ++ pyQuote
  | .vList l => "[" ++ pyReprElems l ++ "]"
  | .vObj o => "\x7b" ++ pyReprEntries o ++ "\x7d"

/-- Comma-separated `repr`s of list elements. -/
def pyReprElems : List JVal → String
  | [] => ""
  | [v] => pyRepr v
  | v :: rest => pyRepr v ++ ", " ++ pyReprElems rest

/-- Comma-separated `repr(k): repr(v)` renderings of dict entries. -/
def pyReprEntries : List (String × JVal) → String
  | [] => ""
  | [(k, v)] => pyQuote ++ k ++ pyQuote ++ ": " ++ pyRepr v
  | (k, v) :: rest => pyQuote ++ k ++ pyQuote ++ ": " ++ pyRepr v ++ ", " ++ pyReprEntries rest
end

/-- Python dict assignment `d[k] = v` on an insertion-ordered dict: an
existing key keeps its position and gets the new value, a new key is appended. -/
def dictInsert {α : Type} (d : List (String × α)) (k : String) (v : α) : List (String × α) :=
  if d.any (fun p => p.1 == k) then
    d.map (fun p => if p.1 == k then (k, v) else p)
  else d ++ [(k, v)]

/-- Python's `dict(items)` (equally: `items.update(..)` folded over an empty
dict): later bindings of a key overwrite earlier ones in place. -/
def pyDict {α : Type} (items : List (String × α)) : List (String × α) :=
  items.foldl (fun acc p => dictInsert acc p.1 p.2) []

/-- Python dict lookup `d.get(k)`: value of the first (unique) matching key. -/
def dictGet {α : Type} (d : List (String × α)) (k : String) : Option α :=
  match d.find? (fun p => p.1 == k) with
  | some p => some p.2
  | none => none

/-- `parent_key + sep + k if parent_key else k`. -/
def joinKey (pk sep k : String) : String :=
  if pk = "" then k else pk ++ sep ++ k

mutual
/-- The loop body of `flatten`, producing the `items` list that the source
finally passes to `dict(..)`.  A dict value recurses (its recursive result is
itself a dict, hence the inner `pyDict`); a list value is stored as its
`str(..)` rendering; any other value is stored unchanged. -/
def flattenItems : List (String × JVal) → String → String → List (String × JVal)
  | [], _, _ => []
  | (k, v) :: rest, pk, sep =>
      flattenPair k v pk sep ++ flattenItems rest pk sep

/-- The items contributed by one key/value pair of `flatten`'s loop:
`isinstance(v, MutableMapping)` recurses, `type(v) is list` stringifies,
anything else passes through. -/
def flattenPair : String → JVal → String → String → List (String × JVal)
  | k, JVal.vObj o, pk, sep => pyDict (flattenItems o (joinKey pk sep k) sep)
  | k, JVal.vList l, pk, sep => [(joinKey pk sep k, JVal.vStr (pyRepr (JVal.vList l)))]
  | k, v, pk, sep => [(joinKey pk sep k, v)]
end

/-- `flatten(dictionary, parent_key, sep)`: the final `dict(items)`.  The
`if dictionary:` guard coincides with the `[]` base case of the item loop. -/
def flatten (dictionary : List (String × JVal)) (parent_key sep : String) : List (String × JVal) :=
  pyDict (flattenItems dictionary parent_key sep)

/-- Python's `"object" in x` when `x` is the string `s`: substring containment.
`charsLead needle hay` tests whether `needle` is an initial run of `hay`. -/
def charsLead : List Char → List Char → Bool
  | [], _ => true
  | _ :: _, [] => false
  | a :: as, b :: bs => a == b && charsLead as bs

/-- Substring containment on character lists: `needle` occurs somewhere. -/
def charsIn (needle : List Char) : List Char → Bool
  | [] => charsLead needle []
  | c :: cs => charsLead needle (c :: cs) || charsIn needle cs

/-- Python's `needle in hay` on strings. -/
def pyStrIn (needle hay : String) : Bool := charsIn needle.data hay.data

/-- The test `"object" in value.get("type", [])` of `flatten_schema`: an
absent `"type"` defaults to `[]` (false); a list tests exact membership of
the lowercase token; a string value tests substring containment, exactly as
Python's `in` does on each. -/
def typeHasObject : Option TypeDecl → Bool
  | none => false
  | some (TypeDecl.str s) => pyStrIn "object" s
  | some (TypeDecl.list l) => l.contains "object"

mutual
/-- The loop body of `flatten_schema`: the sequence of key/value bindings the
source writes into `items` (by `items.update(..)` for object nodes and
`items[new_key] = value.get("type", None)` otherwise), in loop order.  The
function returns `pyDict` of this sequence. -/
def flatten_schema_entries : List (String × SchemaNode) → String → String → List (String × Option TypeDecl)
  | [], _, _ => []
  | (key, node) :: rest, pk, sep =>
      flatten_schema_entry key node pk sep ++ flatten_schema_entries rest pk sep

/-- The bindings contributed by one key/declaration pair: an object-typed
declaration splices in the recursive flat dict of its `properties` (recursing
into an absent `properties` passes `None`, whose `if dictionary:` guard
yields the empty dict); any other declaration binds the flattened key to the
raw `"type"` value (`None` when absent). -/
def flatten_schema_entry : String → SchemaNode → String → String → List (String × Option TypeDecl)
  | key, SchemaNode.mk t props, pk, sep =>
      if typeHasObject t then
        match props with
        | some ps => pyDict (flatten_schema_entries ps (joinKey pk sep key) sep)
        | none => pyDict []
      else
        [(joinKey pk sep key, t)]
end

/-- `flatten_schema(dictionary, parent_key, sep)`: the `items` dict built by
the loop; `None` input is treated as empty by the `if dictionary:` guard. -/
def flatten_schema (dictionary : Option (List (String × SchemaNode))) (parent_key sep : String) : List (String × Option TypeDecl) :=
  pyDict (flatten_schema_entries (dictionary.getD []) parent_key sep)

mutual
/-- The `LOGGER.warning(f"SCHEMA with limited support on field {key}: {value}")`
side channel of `flatten_schema`, modelled as the list of `(key, value)`
payloads emitted during the same traversal, in emission order.  The source's
return value (`flatten_schema`) is computed independently of this channel. -/
def flatten_schema_warnings : List (String × SchemaNode) → List (String × SchemaNode)
  | [] => []
  | (key, node) :: rest =>
      flatten_schema_warnEntry key node ++ flatten_schema_warnings rest

/-- Warnings contributed by one key/declaration pair: one warning when the
declaration has no `"type"` key, then the warnings of the recursive call for
object-typed declarations with `properties`. -/
def flatten_schema_warnEntry : String → SchemaNode → List (String × SchemaNode)
  | key, SchemaNode.mk t props =>
      (if t.isNone then [(key, SchemaNode.mk t props)] else []) ++
      (if typeHasObject t then
        match props with
        | some ps => flatten_schema_warnings ps
        | none => []
      else [])
end

/-- `FIELD_TYPE_TO_PYARROW` and its `.get(input_type, None)` lookup. -/
def FIELD_TYPE_TO_PYARROW : List (String × PAType) :=
  [("BOOLEAN", PAType.bool_),
   ("STRING", PAType.string_),
   ("ARRAY", PAType.string_),
   ("", PAType.string_),
   ("INTEGER", PAType.int64),
   ("NUMBER", PAType.float64)]

/-- Python's `str.upper()` for the ASCII type tokens the module compares. -/
def pyUpper (s : String) : String := String.mk (s.data.map Char.toUpper)

/-- The normalization `input_types = input_types or []` followed by the
`isinstance(input_types, str)` wrap: `None`, `[]` and `""` are falsy and
become `[]`; a non-empty string becomes a singleton list; a non-empty list
stays itself. -/
def normalizeInputTypes : Option TypeDecl → List String
  | none => []
  | some (TypeDecl.str s) => if s = "" then [] else [s]
  | some (TypeDecl.list l) => l

/-- The set comprehension `{item.upper() for item in input_types}`, as the
first-occurrence deduplicated list of upper-cased tokens (one possible
iteration order of the Python set; see module comment). -/
def typesUppercase (input_types : List String) : List String :=
  (input_types.map pyUpper).eraseDups

/-- The f-string `str(..)` rendering of a list of strings, as interpolated
into the `NotImplementedError` message. -/
def pyStrOfList (l : List String) : String :=
  "[" ++ String.intercalate ", " (l.map (fun s => pyQuote ++ s ++ pyQuote)) ++ "]"

/-- The message of the `NotImplementedError` raised by
`_field_type_to_pyarrow_field`; note the interpolated `input_types` is the
local variable after normalization, not the caller's original value. -/
def unsupportedMsg (field_name : String) (shown_types : List String) : String :=
  "Data types " ++ pyDQuote ++ pyStrOfList shown_types ++ pyDQuote ++
    " for field " ++ field_name ++ " is not yet supported."

/-- `_field_type_to_pyarrow_field(field_name, input_types)`: normalize, take
the upper-cased token set, read off nullability from `"NULL"`, discard it,
pick a remaining token (or `""`), look it up, and either build the
`pa.field` or raise `NotImplementedError`.  (`pa` type objects are truthy, so
`if not pyarrow_type:` fires exactly on a failed lookup.) -/
def _field_type_to_pyarrow_field (field_name : String) (input_types : Option TypeDecl) : Except PyError PAField :=
  let normalized := normalizeInputTypes input_types
  let types_uppercase := typesUppercase normalized
  let nullable := types_uppercase.contains "NULL"
  let remaining := types_uppercase.filter (fun t => t ≠ "NULL")
  let input_type := remaining.headD ""
  match dictGet FIELD_TYPE_TO_PYARROW input_type with
  | some pyarrow_type => Except.ok (PAField.mk field_name pyarrow_type nullable)
  | none => Except.error (PyError.notImplementedError (unsupportedMsg field_name normalized))

/-- The list comprehension of `flatten_schema_to_pyarrow_schema`, evaluated
left to right: `flatten_schema_dictionary[field_name]` raises `KeyError` on
a missing key, and the per-field resolver error propagates; the first
exception aborts the whole construction. -/
def buildFields (d : List (String × Option TypeDecl)) : List String → Except PyError (List PAField)
  | [] => Except.ok []
  | field_name :: rest =>
      match dictGet d field_name with
      | none => Except.error (PyError.keyError field_name)
      | some t =>
          match _field_type_to_pyarrow_field field_name t with
          | Except.error e => Except.error e
          | Except.ok fld =>
              match buildFields d rest with
              | Except.error e => Except.error e
              | Except.ok flds => Except.ok (fld :: flds)

/-- `flatten_schema_to_pyarrow_schema(flatten_schema_dictionary, fields_ordered)`:
`None` input is replaced by the empty dict, then `pa.schema` wraps the
comprehension's field list (modelled as the list itself). -/
def flatten_schema_to_pyarrow_schema (flatten_schema_dictionary : Option (List (String × Option TypeDecl))) (fields_ordered : List String) : Except PyError (List PAField) :=
  buildFields (flatten_schema_dictionary.getD []) fields_ordered

mutual
/-- The leaf values of a nested record: values reached by recursing through
dict values only, i.e. exactly the values `flatten` turns into output rows. -/
def leafValues : List (String × JVal) → List JVal
  | [] => []
  | (_, v) :: rest => leafValuesOf v ++ leafValues rest

/-- Leaf values below one record value: a dict contributes its members'
leaves, anything else is itself a leaf. -/
def leafValuesOf : JVal → List JVal
  | JVal.vObj o => leafValues o
  | v => [v]
end

/-- What `flatten` stores for a leaf: lists become their `str(..)` rendering,
every other value is stored unchanged. -/
def leafTransform : JVal → JVal
  | JVal.vList l => JVal.vStr (pyRepr (JVal.vList l))
  | v => v

theorem mem_dictInsert {α : Type} {d : List (String × α)} {k : String} {v : α} {p : String × α}
    (hp : p ∈ dictInsert d k v) : p ∈ d ∨ p = (k, v) := by
  unfold dictInsert at hp
  split at hp
  · obtain ⟨q, hq, hqe⟩ := List.mem_map.mp hp
    by_cases h : q.1 == k
    · rw [if_pos h] at hqe
      exact Or.inr hqe.symm
    · rw [if_neg h] at hqe
      exact Or.inl (hqe ▸ hq)
  · rcases List.mem_append.mp hp with h | h
    · exact Or.inl h
    · exact Or.inr (List.mem_singleton.mp h)

theorem mem_pyDict {α : Type} {items : List (String × α)} {p : String × α}
    (hp : p ∈ pyDict items) : p ∈ items := by
  have key : ∀ (l acc : List (String × α)),
      p ∈ l.foldl (fun acc q => dictInsert acc q.1 q.2) acc → p ∈ acc ∨ p ∈ l := by
    intro l
    induction l with
    | nil => intro acc h; exact Or.inl h
    | cons q rest ih =>
        intro acc h
        rcases ih _ h with h1 | h1
        · rcases mem_dictInsert h1 with h2 | h2
          · exact Or.inl h2
          · exact Or.inr (by simp [h2])
        · exact Or.inr (List.mem_cons_of_mem _ h1)
  have := key items [] hp
  simpa using this

theorem dictInsert_append_of_not_mem {α : Type} {d : List (String × α)} {k : String} {v : α}
    (h : ∀ p ∈ d, p.1 ≠ k) : dictInsert d k v = d ++ [(k, v)] := by
  have hany : d.any (fun p => p.1 == k) = false := by
    rw [List.any_eq_false]
    intro p hp
    simpa using h p hp
  simp [dictInsert, hany]

theorem pyDict_eq_self {α : Type} {l : List (String × α)}
    (h : (l.map Prod.fst).Nodup) : pyDict l = l := by
  have key : ∀ (t acc : List (String × α)), ((acc ++ t).map Prod.fst).Nodup →
      t.foldl (fun acc q => dictInsert acc q.1 q.2) acc = acc ++ t := by
    intro t
    induction t with
    | nil => intro acc _; simp
    | cons q rest ih =>
        intro acc hnd
        have hq : ∀ p ∈ acc, p.1 ≠ q.1 := by
          intro p hp hpe
          rw [List.map_append, List.nodup_append] at hnd
          exact hnd.2.2 (List.mem_map_of_mem Prod.fst hp) (by simp [hpe])
        rw [List.foldl_cons, dictInsert_append_of_not_mem hq]
        have hnd2 : (((acc ++ [q]) ++ rest).map Prod.fst).Nodup := by
          simpa [List.append_assoc] using hnd
        rw [ih (acc ++ [q]) hnd2]
        simp
  have := key l [] (by simpa using h)
  simpa [pyDict] using this

theorem leafTransform_eq_self {v : JVal} (h : ∀ l, v ≠ JVal.vList l) :
    leafTransform v = v := by
  cases v with
  | vList l => exact absurd rfl (h l)
  | vNull => rfl
  | vBool b => rfl
  | vInt n => rfl
  | vStr s => rfl
  | vObj o => rfl

theorem flattenItems_flat : ∀ (d : List (String × JVal)) (sep : String),
    (∀ p ∈ d, ∀ o, p.2 ≠ JVal.vObj o) →
    flattenItems d "" sep = d.map (fun p => (p.1, leafTransform p.2)) := by
  intro d sep
  induction d with
  | nil => intro _; rfl
  | cons q rest ih =>
      intro h
      obtain ⟨k, v⟩ := q
      have hv : ∀ o, v ≠ JVal.vObj o := fun o => h (k, v) (List.mem_cons_self _ _) o
      have hrest := ih (fun p hp => h p (List.mem_cons_of_mem _ hp))
      rw [flattenItems, hrest]
      cases v with
      | vObj o => exact absurd rfl (hv o)
      | vList l => simp [flattenPair, leafTransform, joinKey]
      | vNull => simp [flattenPair, leafTransform, joinKey]
      | vBool b => simp [flattenPair, leafTransform, joinKey]
      | vInt n => simp [flattenPair, leafTransform, joinKey]
      | vStr s => simp [flattenPair, leafTransform, joinKey]

theorem flattenItems_leafValues :
    ∀ (d : List (String × JVal)) (pk sep : String), ∀ p ∈ flattenItems d pk sep,
      ∃ v ∈ leafValues d, p.2 = leafTransform v := by
  refine (flattenItems.mutual_induct
    (fun d pk sep => ∀ p ∈ flattenItems d pk sep, ∃ v ∈ leafValues d, p.2 = leafTransform v)
    (fun k v pk sep => ∀ p ∈ flattenPair k v pk sep, ∃ w ∈ leafValuesOf v, p.2 = leafTransform w)
    ?_ ?_ ?_ ?_ ?_).1
  · intro k o pk sep ih p hp
    rw [flattenPair] at hp
    obtain ⟨v, hv, he⟩ := ih p (mem_pyDict hp)
    exact ⟨v, by simpa [leafValuesOf] using hv, he⟩
  · intro k l pk sep p hp
    rw [flattenPair] at hp
    rcases List.mem_singleton.mp hp with rfl
    exact ⟨JVal.vList l, by simp [leafValuesOf], by simp [leafTransform]⟩
  · intro k v pk sep hno hnl p hp
    cases v with
    | vObj o => exact absurd rfl (fun h => hno o h)
    | vList l => exact absurd rfl (fun h => hnl l h)
    | vNull =>
        rw [show flattenPair k JVal.vNull pk sep = [(joinKey pk sep k, JVal.vNull)] from rfl] at hp
        rcases List.mem_singleton.mp hp with rfl
        exact ⟨JVal.vNull, by simp [leafValuesOf], rfl⟩
    | vBool b =>
        rw [show flattenPair k (JVal.vBool b) pk sep = [(joinKey pk sep k, JVal.vBool b)] from rfl] at hp
        rcases List.mem_singleton.mp hp with rfl
        exact ⟨JVal.vBool b, by simp [leafValuesOf], rfl⟩
    | vInt n =>
        rw [show flattenPair k (JVal.vInt n) pk sep = [(joinKey pk sep k, JVal.vInt n)] from rfl] at hp
        rcases List.mem_singleton.mp hp with rfl
        exact ⟨JVal.vInt n, by simp [leafValuesOf], rfl⟩
    | vStr s =>
        rw [show flattenPair k (JVal.vStr s) pk sep = [(joinKey pk sep k, JVal.vStr s)] from rfl] at hp
        rcases List.mem_singleton.mp hp with rfl
        exact ⟨JVal.vStr s, by simp [leafValuesOf], rfl⟩
  · intro pk sep p hp
    rw [flattenItems] at hp
    exact absurd hp (List.not_mem_nil p)
  · intro k v rest pk sep ih1 ih2 p hp
    rw [flattenItems] at hp
    rcases List.mem_append.mp hp with h | h
    · obtain ⟨w, hw, he⟩ := ih1 p h
      exact ⟨w, by simp [leafValues, hw], he⟩
    · obtain ⟨w, hw, he⟩ := ih2 p h
      exact ⟨w, by simp [leafValues, hw], he⟩

theorem flatten_schema_entries_no_object :
    ∀ (d : List (String × SchemaNode)) (pk sep : String),
      ∀ p ∈ flatten_schema_entries d pk sep, typeHasObject p.2 = false := by
  refine (flatten_schema_entries.mutual_induct
    (fun d pk sep => ∀ p ∈ flatten_schema_entries d pk sep, typeHasObject p.2 = false)
    (fun key node pk sep => ∀ p ∈ flatten_schema_entry key node pk sep, typeHasObject p.2 = false)
    ?_ ?_ ?_ ?_ ?_).1
  · intro key t pk sep hobj ps ih p hp
    rw [show flatten_schema_entry key (SchemaNode.mk t (some ps)) pk sep =
          if typeHasObject t = true then pyDict (flatten_schema_entries ps (joinKey pk sep key) sep)
          else [(joinKey pk sep key, t)] from rfl, if_pos hobj] at hp
    exact ih p (mem_pyDict hp)
  · intro key t pk sep hobj p hp
    rw [show flatten_schema_entry key (SchemaNode.mk t none) pk sep =
          if typeHasObject t = true then (pyDict [] : List (String × Option TypeDecl))
          else [(joinKey pk sep key, t)] from rfl, if_pos hobj] at hp
    exact absurd (mem_pyDict hp) (List.not_mem_nil p)
  · intro key t props pk sep hobj p hp
    cases props with
    | some ps =>
        rw [show flatten_schema_entry key (SchemaNode.mk t (some ps)) pk sep =
              if typeHasObject t = true then pyDict (flatten_schema_entries ps (joinKey pk sep key) sep)
              else [(joinKey pk sep key, t)] from rfl, if_neg hobj] at hp
        rcases List.mem_singleton.mp hp with rfl
        simpa using hobj
    | none =>
        rw [show flatten_schema_entry key (SchemaNode.mk t none) pk sep =
              if typeHasObject t = true then (pyDict [] : List (String × Option TypeDecl))
              else [(joinKey pk sep key, t)] from rfl, if_neg hobj] at hp
        rcases List.mem_singleton.mp hp with rfl
        simpa using hobj
  · intro pk sep p hp
    rw [flatten_schema_entries] at hp
    exact absurd hp (List.not_mem_nil p)
  · intro key node rest pk sep ih1 ih2 p hp
    rw [flatten_schema_entries] at hp
    rcases List.mem_append.mp hp with h | h
    · exact ih1 p h
    · exact ih2 p h

theorem buildFields_error : ∀ (fields_ordered : List String) (d : List (String × Option TypeDecl)),
    ((∃ f ∈ fields_ordered, dictGet d f = none) ∨
     (∃ f ∈ fields_ordered, ∃ t, dictGet d f = some t ∧
        ∃ e0, _field_type_to_pyarrow_field f t = Except.error e0)) →
    ∃ e, buildFields d fields_ordered = Except.error e := by
  intro fields_ordered
  induction fields_ordered with
  | nil =>
      intro d h
      rcases h with ⟨f, hf, _⟩ | ⟨f, hf, _⟩ <;> exact absurd hf (List.not_mem_nil f)
  | cons f0 rest ih =>
      intro d h
      cases hget : dictGet d f0 with
      | none => exact ⟨PyError.keyError f0, by simp [buildFields, hget]⟩
      | some t0 =>
          cases hres : _field_type_to_pyarrow_field f0 t0 with
          | error e => exact ⟨e, by simp [buildFields, hget, hres]⟩
          | ok fld =>
              have hrest : (∃ f ∈ rest, dictGet d f = none) ∨
                  (∃ f ∈ rest, ∃ t, dictGet d f = some t ∧
                    ∃ e0, _field_type_to_pyarrow_field f t = Except.error e0) := by
                rcases h with ⟨f, hf, hn⟩ | ⟨f, hf, t, ht, e0, he0⟩
                · rcases List.mem_cons.mp hf with rfl | hf2
                  · rw [hget] at hn; exact absurd hn (by simp)
                  · exact Or.inl ⟨f, hf2, hn⟩
                · rcases List.mem_cons.mp hf with rfl | hf2
                  · rw [hget] at ht
                    injection ht with ht2
                    subst ht2
                    rw [hres] at he0
                    exact absurd he0 (by simp)
                  · exact Or.inr ⟨f, hf2, t, ht, e0, he0⟩
              obtain ⟨e, he⟩ := ih d hrest
              exact ⟨e, by simp [buildFields, hget, hres, he]⟩

/-- C1: flattening the schema with an `id` integer field and a `meta` object
wrapping a string field `k`, then building with order `["id", "meta__k"]`,
yields exactly the ordered schema `[(id, int64, nullable), (meta__k, string,
nullable)]`; flattening the record `id: 5, meta.k: "v"` yields exactly the
two bindings `id: 5` and `meta__k: "v"`, whose keys match the schema's
column names. -/
theorem flatten_end_to_end_scenario :
    flatten_schema (some [("id", SchemaNode.mk (some (TypeDecl.list ["null", "integer"])) none),
        ("meta", SchemaNode.mk (some (TypeDecl.list ["null", "object"]))
          (some [("k", SchemaNode.mk (some (TypeDecl.list ["null", "string"])) none)]))]) "" "__" =
      [("id", some (TypeDecl.list ["null", "integer"])),
       ("meta__k", some (TypeDecl.list ["null", "string"]))] ∧
    flatten_schema_to_pyarrow_schema
        (some [("id", some (TypeDecl.list ["null", "integer"])),
               ("meta__k", some (TypeDecl.list ["null", "string"]))]) ["id", "meta__k"] =
      Except.ok [PAField.mk "id" PAType.int64 true, PAField.mk "meta__k" PAType.string_ true] ∧
    flatten [("id", JVal.vInt 5), ("meta", JVal.vObj [("k", JVal.vStr "v")])] "" "__" =
      [("id", JVal.vInt 5), ("meta__k", JVal.vStr "v")] ∧
    (flatten [("id", JVal.vInt 5), ("meta", JVal.vObj [("k", JVal.vStr "v")])] "" "__").map Prod.fst =
      ["id", "meta__k"] :=
  ⟨rfl, rfl, rfl, rfl⟩

/-- C2: the type resolver maps, for field `x`: `["null", "integer"]` to
`(int64, nullable)`; the bare string `"string"` to `(string, non-nullable)`;
the empty list to `(string, non-nullable)`; and `["null", "array"]` to
`(string, nullable)`. -/
theorem field_type_resolution_cases :
    _field_type_to_pyarrow_field "x" (some (TypeDecl.list ["null", "integer"])) =
      Except.ok (PAField.mk "x" PAType.int64 true) ∧
    _field_type_to_pyarrow_field "x" (some (TypeDecl.str "string")) =
      Except.ok (PAField.mk "x" PAType.string_ false) ∧
    _field_type_to_pyarrow_field "x" (some (TypeDecl.list [])) =
      Except.ok (PAField.mk "x" PAType.string_ false) ∧
    _field_type_to_pyarrow_field "x" (some (TypeDecl.list ["null", "array"])) =
      Except.ok (PAField.mk "x" PAType.string_ true) :=
  ⟨rfl, rfl, rfl, rfl⟩

/-- C3 counterexample: called with the bare string `"timestamp"`, the
resolver raises an error whose message interpolates the NORMALIZED singleton
list (rendered `['timestamp']`), which differs from the message that would
render the original value exactly as supplied by the caller (the bare token
`timestamp`).  So the payload does not carry the declared-types value exactly
as supplied. -/
theorem resolver_error_original_value_counterexample :
    _field_type_to_pyarrow_field "x" (some (TypeDecl.str "timestamp")) =
      Except.error (PyError.notImplementedError (unsupportedMsg "x" ["timestamp"])) ∧
    unsupportedMsg "x" ["timestamp"] ≠
      "Data types " ++ pyDQuote ++ "timestamp" ++ pyDQuote ++ " for field x is not yet supported." :=
  ⟨rfl, by decide⟩

/-- C3 amended: whenever the selected non-null token has no entry in the
lookup table, the resolver returns (without defaulting) the
`NotImplementedError` whose message carries the field name and the
NORMALIZED declared-types list — identical to the original value when a
non-empty list was supplied, but a bare string is wrapped in a singleton
list and `None`/empty values become `[]`. -/
theorem resolver_error_carries_normalized_types :
    ∀ (field_name : String) (input_types : Option TypeDecl),
      dictGet FIELD_TYPE_TO_PYARROW
          (((typesUppercase (normalizeInputTypes input_types)).filter
            (fun t => t ≠ "NULL")).headD "") = none →
      _field_type_to_pyarrow_field field_name input_types =
        Except.error (PyError.notImplementedError
          (unsupportedMsg field_name (normalizeInputTypes input_types))) := by
  intro field_name input_types h
  unfold _field_type_to_pyarrow_field
  simp only [h]

/-- C3 witness: the unsupported list `["timestamp"]` produces the error
carrying field `x` and the value `['timestamp']`. -/
theorem resolver_error_carries_normalized_types_witness :
    _field_type_to_pyarrow_field "x" (some (TypeDecl.list ["timestamp"])) =
      Except.error (PyError.notImplementedError (unsupportedMsg "x" ["timestamp"])) :=
  resolver_error_carries_normalized_types "x" (some (TypeDecl.list ["timestamp"])) rfl

/-- C4 counterexample: a node typed `["OBJECT"]` — which contains the token
`object` under case-insensitive comparison but not under the exact lowercase
comparison the code performs — is NOT recursed into: its `properties` leaf
`k` never appears, and the node itself is recorded as a column with its raw
type, so the flat schema does contain a key for a node whose type includes
`object` case-insensitively. -/
theorem flatten_schema_object_case_counterexample :
    flatten_schema (some [("a", SchemaNode.mk (some (TypeDecl.list ["OBJECT"]))
        (some [("k", SchemaNode.mk (some (TypeDecl.list ["null", "string"])) none)]))]) "" "__" =
      [("a", some (TypeDecl.list ["OBJECT"]))] ∧
    (∃ tok ∈ ["OBJECT"], pyUpper tok = pyUpper "object") :=
  ⟨rfl, ⟨"OBJECT", List.mem_singleton.mpr rfl, rfl⟩⟩

/-- C4 amended: whenever a declaration's type contains the token `object`
under Python's case-SENSITIVE `in` (exact membership in a type list),
`flatten_schema` recurses into its `properties` and the object node itself
contributes no key; hence no entry of `flatten_schema`'s result has a
recorded type containing the token `object` — only descendant leaves appear.
A declaration typed with a case variant such as `["OBJECT"]` fails the test
and is recorded as an ordinary leaf. -/
theorem flatten_schema_object_recursion :
    (∀ (dictionary : Option (List (String × SchemaNode))) (pk sep : String),
       ∀ p ∈ flatten_schema dictionary pk sep, typeHasObject p.2 = false) ∧
    (∀ (key : String) (t : Option TypeDecl) (ps rest : List (String × SchemaNode)) (pk sep : String),
       typeHasObject t = true →
       flatten_schema_entries ((key, SchemaNode.mk t (some ps)) :: rest) pk sep =
         pyDict (flatten_schema_entries ps (joinKey pk sep key) sep) ++
           flatten_schema_entries rest pk sep) := by
  constructor
  · intro dictionary pk sep p hp
    exact flatten_schema_entries_no_object (dictionary.getD []) pk sep p (mem_pyDict hp)
  · intro key t ps rest pk sep hobj
    rw [flatten_schema_entries,
      show flatten_schema_entry key (SchemaNode.mk t (some ps)) pk sep =
        if typeHasObject t = true then pyDict (flatten_schema_entries ps (joinKey pk sep key) sep)
        else [(joinKey pk sep key, t)] from rfl, if_pos hobj]

/-- C4 witness: the flat schema of the end-to-end example contains the `id`
entry, whose recorded type does not contain the token `object`. -/
theorem flatten_schema_object_recursion_witness :
    typeHasObject (("id", some (TypeDecl.list ["null", "integer"])) : String × Option TypeDecl).2 = false :=
  flatten_schema_object_recursion.1
    (some [("id", SchemaNode.mk (some (TypeDecl.list ["null", "integer"])) none)]) "" "__"
    ("id", some (TypeDecl.list ["null", "integer"]))
    (List.mem_singleton.mpr rfl)

/-- C5: `flatten` turns every list-valued leaf into the host language's
default string rendering of the list and stores it as a scalar; in
particular the record `a.b = ["10", "11"]` flattens to the single binding
`a__b: "['10', '11']"` (the expected string is spelled with `pyQuote` for
the two single-quote characters); and every value in `flatten`'s output is
the `leafTransform` image of a leaf of the input, where `leafTransform`
stringifies exactly the list leaves and leaves every other scalar unchanged. -/
theorem flatten_stringifies_list_leaves :
    flatten [("a", JVal.vObj [("b", JVal.vList [JVal.vStr "10", JVal.vStr "11"])])] "" "__" =
      [("a__b", JVal.vStr ("[" ++ pyQuote ++ "10" ++ pyQuote ++ ", " ++ pyQuote ++ "11" ++ pyQuote ++ "]"))] ∧
    (∀ (d : List (String × JVal)) (pk sep : String), ∀ p ∈ flatten d pk sep,
       ∃ v ∈ leafValues d, p.2 = leafTransform v) ∧
    (∀ l, leafTransform (JVal.vList l) = JVal.vStr (pyRepr (JVal.vList l))) ∧
    (∀ v, (∀ l, v ≠ JVal.vList l) → leafTransform v = v) := by
  refine ⟨rfl, ?_, fun l => rfl, fun v hv => leafTransform_eq_self hv⟩
  intro d pk sep p hp
  exact flattenItems_leafValues d pk sep p (mem_pyDict hp)

/-- C5 witness: in the flattening of `x: [1]`, the stored value is the
transform of a leaf of the input. -/
theorem flatten_stringifies_list_leaves_witness :
    ∃ v ∈ leafValues [("x", JVal.vList [JVal.vInt 1])],
      (("x", JVal.vStr ("[" ++ "1" ++ "]")) : String × JVal).2 = leafTransform v :=
  flatten_stringifies_list_leaves.2.1 [("x", JVal.vList [JVal.vInt 1])] "" "__"
    ("x", JVal.vStr ("[" ++ "1" ++ "]")) (List.mem_singleton.mpr rfl)

/-- C6: on a depth-1 mapping (no value is itself a nested mapping, keys
unique as in a Python dict), `flatten` returns the mapping unchanged apart
from the type normalization `leafTransform` applies to each value; when
additionally no value is a list, it returns the mapping exactly. -/
theorem flatten_flat_mapping_identity :
    ∀ (d : List (String × JVal)) (sep : String),
      (∀ p ∈ d, ∀ o, p.2 ≠ JVal.vObj o) →
      (d.map Prod.fst).Nodup →
      flatten d "" sep = d.map (fun p => (p.1, leafTransform p.2)) ∧
      ((∀ p ∈ d, ∀ l, p.2 ≠ JVal.vList l) → flatten d "" sep = d) := by
  intro d sep hobj hnd
  have hitems := flattenItems_flat d sep hobj
  have hkeys : ((d.map (fun p => (p.1, leafTransform p.2))).map Prod.fst).Nodup := by
    simpa [List.map_map, Function.comp_def] using hnd
  have hmain : flatten d "" sep = d.map (fun p => (p.1, leafTransform p.2)) := by
    rw [flatten, hitems, pyDict_eq_self hkeys]
  refine ⟨hmain, fun hlist => ?_⟩
  rw [hmain]
  have : ∀ p ∈ d, (fun p => (p.1, leafTransform p.2)) p = id p := by
    intro p hp
    simp [leafTransform_eq_self (hlist p hp)]
  rw [List.map_congr_left this, List.map_id]

/-- C6 witness: a one-field flat record with an integer value is returned
exactly. -/
theorem flatten_flat_mapping_identity_witness :
    flatten [("a", JVal.vInt 1)] "" "__" = [("a", JVal.vInt 1)] :=
  (flatten_flat_mapping_identity [("a", JVal.vInt 1)] "__"
      (by intro p hp o; rcases List.mem_singleton.mp hp with rfl; simp)
      (by simp)).2
    (by intro p hp l; rcases List.mem_singleton.mp hp with rfl; simp)

/-- C7: the schema builder fails with an error — returning no partial
schema — whenever some requested field name is absent from the flat type
mapping, or some requested field's type fails to resolve; the first
offending field's exception aborts the whole comprehension. -/
theorem pyarrow_schema_build_errors :
    ∀ (flatten_schema_dictionary : Option (List (String × Option TypeDecl)))
      (fields_ordered : List String),
      ((∃ f ∈ fields_ordered, dictGet (flatten_schema_dictionary.getD []) f = none) ∨
       (∃ f ∈ fields_ordered, ∃ t, dictGet (flatten_schema_dictionary.getD []) f = some t ∧
          ∃ e0, _field_type_to_pyarrow_field f t = Except.error e0)) →
      ∃ e, flatten_schema_to_pyarrow_schema flatten_schema_dictionary fields_ordered =
        Except.error e := by
  intro d fields_ordered h
  exact buildFields_error fields_ordered (d.getD []) h

/-- C7 witness: requesting the absent field `b` from a one-field mapping
makes the build fail. -/
theorem pyarrow_schema_build_errors_witness :
    ∃ e, flatten_schema_to_pyarrow_schema
        (some [("a", some (TypeDecl.list ["null", "integer"]))]) ["b"] = Except.error e :=
  pyarrow_schema_build_errors (some [("a", some (TypeDecl.list ["null", "integer"]))]) ["b"]
    (Or.inl ⟨"b", List.mem_singleton.mpr rfl, rfl⟩)

/-- C8: a schema field whose declaration has no `"type"` key makes
`flatten_schema` emit exactly one warning carrying that field's key and
declaration, while still recording the flattened key with an absent (`None`)
type in the returned mapping (the warning alters nothing in the return
value, which is computed by `flatten_schema` independently of the warning
channel); resolving that key later with the absent type yields the default
`(string, nullable=false)` field. -/
theorem flatten_schema_missing_type_warning :
    ∀ (key : String) (node : SchemaNode) (pk sep : String),
      node.typeAttr = none →
      flatten_schema_warnings [(key, node)] = [(key, node)] ∧
      flatten_schema (some [(key, node)]) pk sep = [(joinKey pk sep key, none)] ∧
      _field_type_to_pyarrow_field (joinKey pk sep key) none =
        Except.ok (PAField.mk (joinKey pk sep key) PAType.string_ false) := by
  intro key node pk sep ht
  obtain ⟨t, props⟩ := node
  have ht2 : t = none := ht
  subst ht2
  refine ⟨?_, ?_, rfl⟩
  · cases props <;> rfl
  · cases props <;> rfl

/-- C8 witness: the empty declaration under key `f` is recorded with an
absent type. -/
theorem flatten_schema_missing_type_warning_witness :
    flatten_schema (some [("f", SchemaNode.mk none none)]) "" "__" = [(joinKey "" "__" "f", none)] :=
  (flatten_schema_missing_type_warning "f" (SchemaNode.mk none none) "" "__" rfl).2.1

/-- C9: a node whose declared type contains the token `object` but which has
no `"properties"` key contributes no entries at all — recursing into the
absent properties passes `None`, whose guard yields the empty mapping — and
no error is raised (`flatten_schema` is total and returns a plain value);
this holds for the node in any position and for the node alone. -/
theorem flatten_schema_object_without_properties :
    ∀ (key : String) (t : TypeDecl) (rest : List (String × SchemaNode)) (pk sep : String),
      typeHasObject (some t) = true →
      flatten_schema_entries ((key, SchemaNode.mk (some t) none) :: rest) pk sep =
        flatten_schema_entries rest pk sep ∧
      flatten_schema (some [(key, SchemaNode.mk (some t) none)]) pk sep = [] := by
  intro key t rest pk sep h
  have hent : flatten_schema_entry key (SchemaNode.mk (some t) none) pk sep = [] := by
    rw [show flatten_schema_entry key (SchemaNode.mk (some t) none) pk sep =
          if typeHasObject (some t) = true then (pyDict [] : List (String × Option TypeDecl))
          else [(joinKey pk sep key, some t)] from rfl, if_pos h]
    rfl
  constructor
  · rw [flatten_schema_entries, hent]
    rfl
  · rw [flatten_schema, show (some [(key, SchemaNode.mk (some t) none)] :
        Option (List (String × SchemaNode))).getD [] = [(key, SchemaNode.mk (some t) none)] from rfl,
      flatten_schema_entries, hent]
    rfl

/-- C9 witness: an `["object"]`-typed declaration without properties yields
the empty flat schema. -/
theorem flatten_schema_object_without_properties_witness :
    flatten_schema (some [("a", SchemaNode.mk (some (TypeDecl.list ["object"])) none)]) "" "__" = [] :=
  (flatten_schema_object_without_properties "a" (TypeDecl.list ["object"]) [] "" "__" rfl).2

/-- C10: a key whose value is an empty nested mapping disappears from
`flatten`'s output entirely — it contributes no items in any position — and
in particular flattening the record whose only key `a` holds an empty
mapping yields the empty mapping. -/
theorem flatten_drops_empty_mapping :
    (∀ (k : String) (rest : List (String × JVal)) (pk sep : String),
       flattenItems ((k, JVal.vObj []) :: rest) pk sep = flattenItems rest pk sep) ∧
    flatten [("a", JVal.vObj [])] "" "__" = [] := by
  constructor
  · intro k rest pk sep
    rw [flattenItems, flattenPair]
    rfl
  · rfl
